import Mathlib

/-!
Shallow embedding of `ivy_tests/test_ivy/helpers/hypothesis_helpers/number_helpers.py`.

The file under verification defines three hypothesis composite strategies:
`floats`, `ints` and `number`.  Each one first draws a concrete dtype from
`dtype_helpers.get_dtypes`, optionally rescales the requested `[min, max]`
window with `general_helpers.apply_safety_factor`, and finally delegates the
value draw to the host framework (`st.floats` / `st.integers` / `st.one_of`).

Numeric values are embedded as rationals.  The host framework's pseudorandom
draws are embedded as an explicit oracle record: every draw the Python
generator makes becomes one lookup in the oracle, and each run returns the
ordered trace of host draws it performed together with its outcome.

`apply_safety_factor`, the dtype resolver limits for floats, and the host
cast `float_of` live outside the file under verification; they are modelled
from the specification (see the doc comments on `applySafetyFactor`,
`SpecEnv` and `float_of`).
-/

set_option autoImplicit false

namespace NumberHelpers

/-- The four float dtypes of the `floats_info` table in the source. -/
inductive FloatDtype where
  | float16
  | bfloat16
  | float32
  | float64
deriving DecidableEq

/-- One row of the `floats_info` table: the cast type and the draw width. -/
structure FloatInfoRow where
  cast_type : FloatDtype
  width : Nat
deriving DecidableEq

/-- The module level `floats_info` table, embedded verbatim from the source:
`float16 ↦ (float16, 16)`, `bfloat16 ↦ (float32, 32)`, `float32 ↦ (float32, 32)`,
`float64 ↦ (float64, 64)`. -/
def floats_info : FloatDtype → FloatInfoRow
  | .float16 => { cast_type := .float16, width := 16 }
  | .bfloat16 => { cast_type := .float32, width := 32 }
  | .float32 => { cast_type := .float32, width := 32 }
  | .float64 => { cast_type := .float64, width := 64 }

/-- Integer dtypes the resolver can return for the "integer" category. -/
inductive IntDtype where
  | int8
  | int16
  | int32
  | int64
  | uint8
  | uint16
  | uint32
  | uint64
deriving DecidableEq

/-- Safety factor scale mode: `"linear"` or `"log"`. -/
inductive ScaleMode where
  | linear
  | log
deriving DecidableEq

/-- A resolved numeric domain: representable min/max and the smallest
nonzero magnitude (the default excluded-band boundary for floats). -/
structure DomainInfo where
  rmin : ℚ
  rmax : ℚ
  smallestNormal : ℚ
deriving DecidableEq

/-- Modelled from the spec: `dtype_helpers` is not part of the file under
verification; the NumericDomain resolver supplies two's-complement limits
for integer dtypes. Integer domains have no excluded zero band. -/
def iinfoDomain : IntDtype → DomainInfo
  | .int8 => { rmin := -128, rmax := 127, smallestNormal := 0 }
  | .int16 => { rmin := -32768, rmax := 32767, smallestNormal := 0 }
  | .int32 => { rmin := -2147483648, rmax := 2147483647, smallestNormal := 0 }
  | .int64 => { rmin := -9223372036854775808, rmax := 9223372036854775807, smallestNormal := 0 }
  | .uint8 => { rmin := 0, rmax := 255, smallestNormal := 0 }
  | .uint16 => { rmin := 0, rmax := 65535, smallestNormal := 0 }
  | .uint32 => { rmin := 0, rmax := 4294967295, smallestNormal := 0 }
  | .uint64 => { rmin := 0, rmax := 18446744073709551615, smallestNormal := 0 }

/-- Modelled from the spec: parameters of the embedding that stand for
external collaborators not present in the file under verification.
`finfo` is the NumericDomain resolver's limit table for float dtypes
(representable min/max and smallest-normal magnitude).  `logMag` is the
log-mode magnitude transform `(f, x) ↦ sign x * 2 ^ (log2 |x| / f)` of the
SafetyFactorScaler, which is not expressible as a computable rational
function; theorems about log mode hold for every choice of it. -/
structure SpecEnv where
  finfo : FloatDtype → DomainInfo
  logMag : ℚ → ℚ → ℚ

/-- The error taxonomy of the spec that the core itself can raise. -/
inductive GenError where
  | rangeError
deriving DecidableEq

/-- Modelled from the spec: `general_helpers.apply_safety_factor` is not part
of the file under verification.  Per the SafetyFactorScaler contract:
unstated bounds default to the domain's representable min/max and an
unstated excluded-band magnitude defaults to the domain's smallest-normal
magnitude; linear mode divides both edges by the large factor and multiplies
the band magnitude by the small factor; log mode applies the exponent
transform to both (dividing the exponent by the respective factor); the
scaled edges are then clamped to the domain's representable min/max, and an
inverted window (`min > max` after scaling) is a RangeError. -/
def applySafetyFactor (env : SpecEnv) (dom : DomainInfo)
    (min_value max_value abs_smallest_val : Option ℚ)
    (small_abs_safety_factor large_abs_safety_factor : ℚ)
    (safety_factor_scale : ScaleMode) : Except GenError (ℚ × ℚ × ℚ) :=
  let mn := min_value.getD dom.rmin
  let mx := max_value.getD dom.rmax
  let ab := abs_smallest_val.getD dom.smallestNormal
  let scaled : ℚ × ℚ × ℚ :=
    match safety_factor_scale with
    | .linear =>
        (mn / large_abs_safety_factor, mx / large_abs_safety_factor,
          ab * small_abs_safety_factor)
    | .log =>
        (env.logMag large_abs_safety_factor mn,
          env.logMag large_abs_safety_factor mx,
          env.logMag small_abs_safety_factor ab)
  let mn' := max scaled.1 dom.rmin
  let mx' := min scaled.2.1 dom.rmax
  if mn' > mx' then .error .rangeError else .ok (mn', mx', scaled.2.2)

/-- Modelled from the spec: `hypothesis.internal.floats.float_of` casts a
value to the requested bit width.  The spec treats the cast as
bound-preserving ("clamp values to representable float precision at that
width"; the returned value "lies within the caller's effective bounds"), so
the embedding models it as exact: bit-level float rounding is outside the
rational embedding. -/
def float_of (x : ℚ) (_width : Nat) : ℚ := x

/-- One request to the host `st.floats` primitive: the bounds after casting,
the draw width and the five pass-through flags. -/
structure FloatReq where
  min_value : ℚ
  max_value : ℚ
  width : Nat
  allow_nan : Bool
  allow_subnormal : Bool
  allow_inf : Bool
  exclude_min : Bool
  exclude_max : Bool
deriving DecidableEq

/-- A host float draw result: a rational payload plus the special-value
markers the host flags control. -/
structure FloatVal where
  val : ℚ
  isNan : Bool
  isInf : Bool
  isSubnormal : Bool
deriving DecidableEq

/-- Contract of the host `st.floats` primitive (an external collaborator):
special values only appear when their flag allows them, and a drawn ordinary
value respects the requested bounds, strictly on an excluded side. -/
def floatDrawOk (req : FloatReq) (v : FloatVal) : Bool :=
  (req.allow_nan || !v.isNan) &&
  (req.allow_inf || !v.isInf) &&
  (req.allow_subnormal || !v.isSubnormal) &&
  (v.isNan || v.isInf ||
    ((if req.exclude_min then decide (req.min_value < v.val)
        else decide (req.min_value ≤ v.val)) &&
      (if req.exclude_max then decide (v.val < req.max_value)
        else decide (v.val ≤ req.max_value))))

/-- Contract of the host `st.integers` primitive: the drawn integer respects
every stated bound (an unstated side is unconstrained). -/
def intDrawOk (lo hi : Option ℚ) (r : ℤ) : Bool :=
  (match lo with
    | none => true
    | some l => decide (l ≤ (r : ℚ))) &&
  (match hi with
    | none => true
    | some h => decide ((r : ℚ) ≤ h))

/-- The host framework's pseudorandom drawing context for one generator
invocation, embedded as explicit response tables: one field per kind of
draw the Python code can make. -/
structure Oracle where
  drawFloatDtype : FloatDtype
  drawIntDtype : IntDtype
  oneOfSecond : Bool
  numberPickFloat : Bool
  drawFloat : FloatReq → FloatVal
  drawInt : Option ℚ → Option ℚ → ℤ

/-- One host draw performed by a generator run, recorded in order. -/
inductive DrawEvent where
  | dtypeFloatDraw (d : FloatDtype)
  | dtypeIntDraw (d : IntDtype)
  | oneOfChoice (second : Bool)
  | floatDraw (req : FloatReq)
  | intDraw (lo hi : Option ℚ)
deriving DecidableEq

/-- Arguments of the `floats` strategy with the source's defaults. -/
structure FloatArgs where
  min_value : Option ℚ := none
  max_value : Option ℚ := none
  abs_smallest_val : Option ℚ := none
  allow_nan : Bool := false
  allow_inf : Bool := false
  allow_subnormal : Bool := false
  exclude_min : Bool := true
  exclude_max : Bool := true
  large_abs_safety_factor : ℚ := 11 / 10
  small_abs_safety_factor : ℚ := 11 / 10
  safety_factor_scale : ScaleMode := .linear

/-- The `st.floats(...)` call the source builds for one sub-window: bounds
cast with `float_of` at the dtype's width, flags passed through verbatim. -/
def mkFloatReq (args : FloatArgs) (w : Nat) (mn mx : ℚ) : FloatReq :=
  { min_value := float_of mn w
    max_value := float_of mx w
    width := w
    allow_nan := args.allow_nan
    allow_subnormal := args.allow_subnormal
    allow_inf := args.allow_inf
    exclude_min := args.exclude_min
    exclude_max := args.exclude_max }

/-- The float strategy the source builds after scaling: either a single
`st.floats` window or an `st.one_of` over two windows. -/
inductive FloatStrategy where
  | single (req : FloatReq)
  | split (lo hi : FloatReq)
deriving DecidableEq

/-- All host requests a strategy can issue. -/
def FloatStrategy.reqs : FloatStrategy → List FloatReq
  | .single r => [r]
  | .split lo hi => [lo, hi]

/-- The branch of `floats` after `apply_safety_factor`: if
`min_value > -abs_smallest_val or max_value < abs_smallest_val` a single
window `[min_value, max_value]`, otherwise `st.one_of` over
`[min_value, -abs_smallest_val]` and `[abs_smallest_val, max_value]`. -/
def floatStrategyOf (args : FloatArgs) (w : Nat) (mn mx ab : ℚ) : FloatStrategy :=
  if mn > -ab ∨ mx < ab then .single (mkFloatReq args w mn mx)
  else .split (mkFloatReq args w mn (-ab)) (mkFloatReq args w ab mx)

/-- One run of the `floats` composite: draw the dtype, apply the safety
factor (surfacing RangeError), build the strategy, then draw the value —
the `st.one_of` alternative in the split case is selected by the oracle's
unweighted choice bit.  Returns the ordered trace of host draws and the
outcome. -/
def floatsRun (env : SpecEnv) (o : Oracle) (args : FloatArgs) :
    List DrawEvent × Except GenError FloatVal :=
  match applySafetyFactor env (env.finfo o.drawFloatDtype) args.min_value args.max_value
      args.abs_smallest_val args.small_abs_safety_factor
      args.large_abs_safety_factor args.safety_factor_scale with
  | .error e => ([.dtypeFloatDraw o.drawFloatDtype], .error e)
  | .ok (mn, mx, ab) =>
      match floatStrategyOf args (floats_info o.drawFloatDtype).width mn mx ab with
      | .single r =>
          ([.dtypeFloatDraw o.drawFloatDtype, .floatDraw r], .ok (o.drawFloat r))
      | .split lo hi =>
          ([.dtypeFloatDraw o.drawFloatDtype, .oneOfChoice o.oneOfSecond,
              .floatDraw (if o.oneOfSecond then hi else lo)],
            .ok (o.drawFloat (if o.oneOfSecond then hi else lo)))

/-- The single host float request a `floats` run performs, when it reaches
the value draw. -/
def floatsReq (env : SpecEnv) (o : Oracle) (args : FloatArgs) : Option FloatReq :=
  match applySafetyFactor env (env.finfo o.drawFloatDtype) args.min_value args.max_value
      args.abs_smallest_val args.small_abs_safety_factor
      args.large_abs_safety_factor args.safety_factor_scale with
  | .error _ => none
  | .ok (mn, mx, ab) =>
      match floatStrategyOf args (floats_info o.drawFloatDtype).width mn mx ab with
      | .single r => some r
      | .split lo hi => some (if o.oneOfSecond then hi else lo)

/-- Arguments of the `ints` strategy with the source's defaults. -/
structure IntArgs where
  min_value : Option ℚ := none
  max_value : Option ℚ := none
  safety_factor : ℚ := 11 / 10
  safety_factor_scale : Option ScaleMode := none

/-- The scale mode `ints` effectively uses: forced to `"linear"` when both
bounds are unstated, otherwise the caller's. -/
def intsEffectiveScale (args : IntArgs) : Option ScaleMode :=
  if args.min_value = none ∧ args.max_value = none then some .linear
  else args.safety_factor_scale

/-- The bounds `ints` hands to `st.integers`: scaled through
`apply_safety_factor` when the effective scale mode is stated, the caller's
bounds unchanged otherwise.  `none` when scaling raises RangeError. -/
def intsWindow (env : SpecEnv) (dtype : IntDtype) (args : IntArgs) :
    Option (Option ℚ × Option ℚ) :=
  match intsEffectiveScale args with
  | some m =>
      match applySafetyFactor env (iinfoDomain dtype) args.min_value
          args.max_value none (11 / 10) args.safety_factor m with
      | .error _ => none
      | .ok (mn, mx, _) => some (some mn, some mx)
  | none => some (args.min_value, args.max_value)

/-- One run of the `ints` composite: draw the dtype, force linear scaling
when both bounds are unstated, apply the safety factor only when a scale
mode is in effect, then delegate to the host integer draw. -/
def intsRun (env : SpecEnv) (o : Oracle) (args : IntArgs) :
    List DrawEvent × Except GenError ℤ :=
  match intsWindow env o.drawIntDtype args with
  | none => ([.dtypeIntDraw o.drawIntDtype], .error .rangeError)
  | some (lo, hi) =>
      ([.dtypeIntDraw o.drawIntDtype, .intDraw lo hi], .ok (o.drawInt lo hi))

/-- Arguments of the `number` strategy with the source's defaults. -/
structure NumberArgs where
  min_value : Option ℚ := none
  max_value : Option ℚ := none
  large_abs_safety_factor : ℚ := 11 / 10
  small_abs_safety_factor : ℚ := 11 / 10
  safety_factor_scale : ScaleMode := .linear

/-- The `ints` arguments the `number` strategy builds: same bounds,
`safety_factor := large_abs_safety_factor`, and the (always stated) scale
mode passed through. -/
def numberIntArgs (args : NumberArgs) : IntArgs :=
  { min_value := args.min_value
    max_value := args.max_value
    safety_factor := args.large_abs_safety_factor
    safety_factor_scale := some args.safety_factor_scale }

/-- The `floats` arguments the `number` strategy builds: same bounds and
safety factors, every other parameter left at its default. -/
def numberFloatArgs (args : NumberArgs) : FloatArgs :=
  { min_value := args.min_value
    max_value := args.max_value
    large_abs_safety_factor := args.large_abs_safety_factor
    small_abs_safety_factor := args.small_abs_safety_factor
    safety_factor_scale := args.safety_factor_scale }

/-- One run of the `number` composite: an unweighted `st.one_of` choice
between the `ints` and `floats` alternatives, each receiving the bound and
safety-factor parameters above. -/
def numberRun (env : SpecEnv) (o : Oracle) (args : NumberArgs) :
    List DrawEvent × Except GenError (ℤ ⊕ FloatVal) :=
  if o.numberPickFloat then
    (.oneOfChoice true :: (floatsRun env o (numberFloatArgs args)).1,
      (floatsRun env o (numberFloatArgs args)).2.map .inr)
  else
    (.oneOfChoice false :: (intsRun env o (numberIntArgs args)).1,
      (intsRun env o (numberIntArgs args)).2.map .inl)

/-- A window or a pair of windows, as plain bound pairs.  Used to state the
RangeSplitter contract independently of the strategy records. -/
inductive WindowsSpec where
  | one (w : ℚ × ℚ)
  | two (lo hi : ℚ × ℚ)
deriving DecidableEq

/-- The RangeSplitter contract, written from the spec's words: a window that
does not straddle the excluded band (`min_value > -abs_smallest_val` or
`max_value < abs_smallest_val`) is returned unchanged; otherwise it is split
into `[min_value, -abs_smallest_val]` and `[abs_smallest_val, max_value]`. -/
def rangeSplitSpec (mn mx ab : ℚ) : WindowsSpec :=
  if mn > -ab ∨ mx < ab then .one (mn, mx)
  else .two (mn, -ab) (ab, mx)

/-- The bound pairs of the windows a strategy draws from. -/
def stratWindows : FloatStrategy → WindowsSpec
  | .single r => .one (r.min_value, r.max_value)
  | .split lo hi => .two (lo.min_value, lo.max_value) (hi.min_value, hi.max_value)

/-- A concrete environment for closed instances: a fixed float domain and a
trivial log-mode transform. -/
def env0 : SpecEnv :=
  { finfo := fun _ => { rmin := -1000, rmax := 1000, smallestNormal := 1 / 1000 }
    logMag := fun _ x => x }

/-- A concrete oracle for closed instances. -/
def oracle0 : Oracle :=
  { drawFloatDtype := .float32
    drawIntDtype := .int8
    oneOfSecond := false
    numberPickFloat := false
    drawFloat := fun _ => { val := -1, isNan := false, isInf := false, isSubnormal := false }
    drawInt := fun _ _ => 0 }

/-- An oracle whose host integer draw returns 1000, a value allowed by the
`st.integers` contract for the request `[5, ∞)` but far outside the `int8`
domain it resolves. -/
def oracle4 : Oracle :=
  { drawFloatDtype := .float32
    drawIntDtype := .int8
    oneOfSecond := false
    numberPickFloat := false
    drawFloat := fun _ => { val := -1, isNan := false, isInf := false, isSubnormal := false }
    drawInt := fun _ _ => 1000 }

/-- A concrete environment whose float domain is `[-5, 5]` with
smallest-normal magnitude 1; used for closed instances with safety factor 1,
where linear scaling is the identity. -/
def wenv : SpecEnv :=
  { finfo := fun _ => { rmin := -5, rmax := 5, smallestNormal := 1 }
    logMag := fun _ x => x }

/-- Concrete `floats` arguments: window `[-5, 5]`, excluded band magnitude 1,
safety factors 1 (no-op scaling). -/
def wargs : FloatArgs :=
  { min_value := some (-5), max_value := some 5, abs_smallest_val := some 1,
    large_abs_safety_factor := 1, small_abs_safety_factor := 1 }

/-- A concrete oracle whose float draw returns -2 (inside the lower
sub-window `[-5, -1]` of `wargs` under `wenv`). -/
def woracle : Oracle :=
  { drawFloatDtype := .float32
    drawIntDtype := .int8
    oneOfSecond := false
    numberPickFloat := false
    drawFloat := fun _ => { val := -2, isNan := false, isInf := false, isSubnormal := false }
    drawInt := fun _ _ => 0 }

/-- The host float request the `wargs` run performs under `wenv`/`woracle`:
the lower sub-window `[-5, -1]` with the default flags. -/
def wreq : FloatReq :=
  { min_value := -5, max_value := -1, width := 32, allow_nan := false,
    allow_subnormal := false, allow_inf := false, exclude_min := true,
    exclude_max := true }

lemma applySafetyFactor_linear (env : SpecEnv) (dom : DomainInfo)
    (min_value max_value abs_smallest_val : Option ℚ) (s l : ℚ) :
    applySafetyFactor env dom min_value max_value abs_smallest_val s l .linear =
      (if max (min_value.getD dom.rmin / l) dom.rmin >
          min (max_value.getD dom.rmax / l) dom.rmax
        then .error .rangeError
        else .ok (max (min_value.getD dom.rmin / l) dom.rmin,
          min (max_value.getD dom.rmax / l) dom.rmax,
          abs_smallest_val.getD dom.smallestNormal * s)) := rfl

lemma floatsRun_of_error (env : SpecEnv) (o : Oracle) (args : FloatArgs) (e : GenError)
    (h : applySafetyFactor env (env.finfo o.drawFloatDtype) args.min_value args.max_value
      args.abs_smallest_val args.small_abs_safety_factor args.large_abs_safety_factor
      args.safety_factor_scale = .error e) :
    floatsRun env o args = ([.dtypeFloatDraw o.drawFloatDtype], .error e) := by
  unfold floatsRun
  rw [h]

lemma intsRun_of_window_none (env : SpecEnv) (o : Oracle) (args : IntArgs)
    (h : intsWindow env o.drawIntDtype args = none) :
    intsRun env o args = ([.dtypeIntDraw o.drawIntDtype], .error .rangeError) := by
  unfold intsRun
  rw [h]

lemma intsRun_of_window_some (env : SpecEnv) (o : Oracle) (args : IntArgs)
    (lo hi : Option ℚ) (h : intsWindow env o.drawIntDtype args = some (lo, hi)) :
    intsRun env o args =
      ([.dtypeIntDraw o.drawIntDtype, .intDraw lo hi], .ok (o.drawInt lo hi)) := by
  unfold intsRun
  rw [h]

lemma inverted_ten_five (dom : DomainInfo) :
    max ((10 : ℚ) / (11 / 10)) dom.rmin > min ((5 : ℚ) / (11 / 10)) dom.rmax := by
  have h1 : min ((5 : ℚ) / (11 / 10)) dom.rmax ≤ (5 : ℚ) / (11 / 10) := min_le_left _ _
  have h2 : ((10 : ℚ)) / (11 / 10) ≤ max ((10 : ℚ) / (11 / 10)) dom.rmin := le_max_left _ _
  have h3 : (5 : ℚ) / (11 / 10) < (10 : ℚ) / (11 / 10) := by norm_num
  linarith

lemma applySafetyFactor_ten_five (env : SpecEnv) (dom : DomainInfo)
    (abs_smallest_val : Option ℚ) (s : ℚ) :
    applySafetyFactor env dom (some 10) (some 5) abs_smallest_val s (11 / 10) .linear =
      .error .rangeError := by
  rw [applySafetyFactor_linear]
  simp only [Option.getD_some]
  rw [if_pos (inverted_ten_five dom)]

/-- C3 (amended): with linear scaling in effect, the inverted request
`min_value = 10, max_value = 5` makes both `floats` and `ints` surface
RangeError before any value draw — but after the dtype-selection draw, which
both generators always perform first. -/
theorem inverted_request_range_error (env : SpecEnv) (o : Oracle) :
    floatsRun env o { min_value := some 10, max_value := some 5 } =
      ([.dtypeFloatDraw o.drawFloatDtype], .error .rangeError)
    ∧ intsRun env o
        { min_value := some 10, max_value := some 5,
          safety_factor := 11 / 10, safety_factor_scale := some .linear } =
      ([.dtypeIntDraw o.drawIntDtype], .error .rangeError) := by
  constructor
  · exact floatsRun_of_error env o _ _ (applySafetyFactor_ten_five env _ none (11 / 10))
  · apply intsRun_of_window_none
    unfold intsWindow intsEffectiveScale
    simp only [reduceCtorEq, false_and, if_false]
    rw [applySafetyFactor_ten_five]

/-- C3 counterexample: at the concrete inverted request
`min_value = 10, max_value = 5`, the `floats` generator has already
performed a host draw — the dtype-selection draw — by the time RangeError is
surfaced, so the error is not raised before any draw occurs. -/
theorem inverted_request_dtype_drawn_before_error :
    (floatsRun env0 oracle0 { min_value := some 10, max_value := some 5 }).1 =
      [.dtypeFloatDraw .float32]
    ∧ (floatsRun env0 oracle0 { min_value := some 10, max_value := some 5 }).2 =
      .error .rangeError := by
  have h : floatsRun env0 oracle0 { min_value := some 10, max_value := some 5 } =
      ([.dtypeFloatDraw oracle0.drawFloatDtype], .error .rangeError) :=
    floatsRun_of_error env0 oracle0 _ _ (applySafetyFactor_ten_five env0 _ none (11 / 10))
  rw [h]
  exact ⟨rfl, rfl⟩

lemma floatDrawOk_bounds (rq : FloatReq) (v : FloatVal) (h : floatDrawOk rq v = true)
    (hn : v.isNan = false) (hi : v.isInf = false) :
    rq.min_value ≤ v.val ∧ v.val ≤ rq.max_value := by
  simp only [floatDrawOk, hn, hi, Bool.and_eq_true, Bool.or_eq_true,
    Bool.false_eq_true, false_or, decide_eq_true_eq] at h
  obtain ⟨-, hlo, hhi⟩ := h
  constructor
  · split at hlo
    · exact le_of_lt (of_decide_eq_true hlo)
    · exact of_decide_eq_true hlo
  · split at hhi
    · exact le_of_lt (of_decide_eq_true hhi)
    · exact of_decide_eq_true hhi

lemma floatDrawOk_flags (rq : FloatReq) (v : FloatVal) (h : floatDrawOk rq v = true) :
    (rq.allow_nan = false → v.isNan = false) ∧
    (rq.allow_inf = false → v.isInf = false) ∧
    (rq.allow_subnormal = false → v.isSubnormal = false) := by
  simp only [floatDrawOk, Bool.and_eq_true, Bool.or_eq_true] at h
  obtain ⟨⟨⟨h1, h2⟩, h3⟩, -⟩ := h
  refine ⟨fun hn => ?_, fun hi => ?_, fun hs => ?_⟩
  · rcases h1 with h | h
    · rw [hn] at h; cases h
    · simpa using h
  · rcases h2 with h | h
    · rw [hi] at h; cases h
    · simpa using h
  · rcases h3 with h | h
    · rw [hs] at h; cases h
    · simpa using h

lemma floatStrategyOf_flags (args : FloatArgs) (w : Nat) (mn mx ab : ℚ) (r : FloatReq)
    (h : r ∈ (floatStrategyOf args w mn mx ab).reqs) :
    r.allow_nan = args.allow_nan ∧ r.allow_inf = args.allow_inf ∧
    r.allow_subnormal = args.allow_subnormal ∧ r.exclude_min = args.exclude_min ∧
    r.exclude_max = args.exclude_max ∧ r.width = w := by
  unfold floatStrategyOf at h
  split at h <;> simp only [FloatStrategy.reqs, List.mem_singleton, List.mem_cons,
      List.not_mem_nil, or_false] at h
  · subst h; exact ⟨rfl, rfl, rfl, rfl, rfl, rfl⟩
  · rcases h with h | h <;> subst h <;> exact ⟨rfl, rfl, rfl, rfl, rfl, rfl⟩

lemma floatsReq_spec (env : SpecEnv) (o : Oracle) (args : FloatArgs) (rq : FloatReq)
    (h : floatsReq env o args = some rq) :
    (floatsRun env o args).2 = .ok (o.drawFloat rq) ∧
    ∃ mn mx ab,
      applySafetyFactor env (env.finfo o.drawFloatDtype) args.min_value args.max_value
        args.abs_smallest_val args.small_abs_safety_factor args.large_abs_safety_factor
        args.safety_factor_scale = .ok (mn, mx, ab) ∧
      rq ∈ (floatStrategyOf args (floats_info o.drawFloatDtype).width mn mx ab).reqs := by
  unfold floatsReq at h
  split at h
  · exact Option.noConfusion h
  next mn mx ab heq =>
    split at h
    next r hstr =>
        obtain rfl : r = rq := Option.some_injective _ h
        refine ⟨?_, mn, mx, ab, heq, by rw [hstr]; exact List.mem_singleton.mpr rfl⟩
        unfold floatsRun
        rw [heq]
        simp only [hstr]
    next lo hi hstr =>
        obtain rfl : (if o.oneOfSecond then hi else lo) = rq := Option.some_injective _ h
        constructor
        · unfold floatsRun
          rw [heq]
          simp only [hstr]
        · refine ⟨mn, mx, ab, heq, ?_⟩
          rw [hstr]
          rcases Bool.eq_false_or_eq_true o.oneOfSecond with hb | hb <;> rw [hb] <;>
            simp [FloatStrategy.reqs]

/-- C1: when the scaled window straddles the excluded zero band
(`min_value ≤ -abs_smallest_val` and `abs_smallest_val ≤ max_value`) with a
nonzero scaled `abs_smallest_val`, a `floats` draw that satisfies the host
contract and is neither NaN nor infinite never lands strictly inside the
open interval `(-abs_smallest_val, abs_smallest_val)`. -/
theorem floats_avoid_zero_band (env : SpecEnv) (o : Oracle) (args : FloatArgs)
    (mn mx ab : ℚ) (rq : FloatReq)
    (happ : applySafetyFactor env (env.finfo o.drawFloatDtype) args.min_value
      args.max_value args.abs_smallest_val args.small_abs_safety_factor
      args.large_abs_safety_factor args.safety_factor_scale = .ok (mn, mx, ab))
    (hstraddle : mn ≤ -ab ∧ ab ≤ mx) (hab : ab ≠ 0)
    (hreq : floatsReq env o args = some rq)
    (hok : floatDrawOk rq (o.drawFloat rq) = true)
    (hfin : (o.drawFloat rq).isNan = false ∧ (o.drawFloat rq).isInf = false) :
    (floatsRun env o args).2 = .ok (o.drawFloat rq) ∧
    ¬(-ab < (o.drawFloat rq).val ∧ (o.drawFloat rq).val < ab) := by
  refine ⟨(floatsReq_spec env o args rq hreq).1, ?_⟩
  have hbounds := floatDrawOk_bounds rq (o.drawFloat rq) hok hfin.1 hfin.2
  have hcond : ¬(mn > -ab ∨ mx < ab) := by push_neg; exact ⟨hstraddle.1, hstraddle.2⟩
  unfold floatsReq at hreq
  split at hreq
  · exact Option.noConfusion hreq
  next mn1 mx1 ab1 heq =>
    obtain ⟨rfl, rfl, rfl⟩ : mn1 = mn ∧ mx1 = mx ∧ ab1 = ab := by
      have h2 := happ.symm.trans heq
      injection h2 with h3
      injection h3 with h4 h5
      injection h5 with h6 h7
      exact ⟨h4.symm, h6.symm, h7.symm⟩
    split at hreq
    next r hstr =>
        unfold floatStrategyOf at hstr
        rw [if_neg hcond] at hstr
        exact FloatStrategy.noConfusion hstr
    next lo hi hstr =>
        unfold floatStrategyOf at hstr
        rw [if_neg hcond] at hstr
        injection hstr with hlo hhi
        rcases Bool.eq_false_or_eq_true o.oneOfSecond with hb | hb <;>
          rw [hb] at hreq <;> simp only [Bool.false_eq_true, if_true, if_false] at hreq
        · obtain rfl : hi = rq := Option.some_injective _ hreq
          subst hhi
          intro hband
          exact absurd hbounds.1 (not_le.mpr hband.2)
        · obtain rfl : lo = rq := Option.some_injective _ hreq
          subst hlo
          intro hband
          exact absurd hbounds.2 (not_le.mpr hband.1)

lemma wenv_applySF :
    applySafetyFactor wenv (wenv.finfo woracle.drawFloatDtype) (some (-5)) (some 5)
      (some 1) 1 1 .linear = .ok (-5, 5, 1) := by
  rw [applySafetyFactor_linear]
  simp only [wenv, woracle, Option.getD_some, div_one, mul_one, max_self, min_self]
  rw [if_neg (by decide)]

lemma wenv_floatsReq : floatsReq wenv woracle wargs = some wreq := by
  unfold floatsReq
  simp only [wargs]
  rw [wenv_applySF]
  simp only [floatStrategyOf]
  rw [if_neg (by decide)]
  simp only [woracle, Bool.false_eq_true, if_false]
  rfl

/-- Witness for C1 at a concrete straddling run: window `[-5, 5]`, band
magnitude 1, host draw -2 in the lower sub-window. -/
theorem floats_avoid_zero_band_witness :
    (floatsRun wenv woracle wargs).2 = .ok (woracle.drawFloat wreq) ∧
    ¬(-(1 : ℚ) < (woracle.drawFloat wreq).val ∧ (woracle.drawFloat wreq).val < 1) := by
  exact floats_avoid_zero_band wenv woracle wargs (-5) 5 1 wreq
    (by simpa only [wargs] using wenv_applySF) ⟨by decide, by decide⟩ (by decide)
    wenv_floatsReq (by decide) ⟨rfl, rfl⟩

/-- C2: after scaling, the windows of the strategy `floats` builds are
exactly the RangeSplitter contract `rangeSplitSpec` — the window is passed
unchanged unless it straddles the excluded band, in which case it is split
into `[min_value, -abs_smallest_val]` and `[abs_smallest_val, max_value]` —
and in the split case the value draw comes from the sub-window selected by
the host's unweighted binary choice, the same regardless of sub-window
widths. -/
theorem floats_range_split (env : SpecEnv) (o : Oracle) (args : FloatArgs) (mn mx ab : ℚ)
    (happ : applySafetyFactor env (env.finfo o.drawFloatDtype) args.min_value
      args.max_value args.abs_smallest_val args.small_abs_safety_factor
      args.large_abs_safety_factor args.safety_factor_scale = .ok (mn, mx, ab)) :
    stratWindows (floatStrategyOf args (floats_info o.drawFloatDtype).width mn mx ab) =
      rangeSplitSpec mn mx ab
    ∧ (¬(mn > -ab ∨ mx < ab) →
        (floatsRun env o args).2 = .ok (o.drawFloat
          (if o.oneOfSecond then mkFloatReq args (floats_info o.drawFloatDtype).width ab mx
            else mkFloatReq args (floats_info o.drawFloatDtype).width mn (-ab)))) := by
  constructor
  · unfold floatStrategyOf rangeSplitSpec
    split
    · rfl
    · rfl
  · intro hcond
    unfold floatsRun
    rw [happ]
    simp only [floatStrategyOf, if_neg hcond]

/-- Witness for C2 at the concrete straddling run. -/
theorem floats_range_split_witness :
    stratWindows (floatStrategyOf wargs 32 (-5) 5 1) = rangeSplitSpec (-5) 5 1
    ∧ (floatsRun wenv woracle wargs).2 =
      .ok (woracle.drawFloat (mkFloatReq wargs 32 (-5) (-1))) := by
  have h := floats_range_split wenv woracle wargs (-5) 5 1
    (by simpa only [wargs] using wenv_applySF)
  exact ⟨h.1, h.2 (by decide)⟩

/-- C7: the NaN/infinity/subnormal/exclusive-bound flags are passed through
verbatim to every host sub-window request in both the split and non-split
cases, and a contract-respecting draw is never NaN, infinite, or subnormal
unless the corresponding flag allows it. -/
theorem floats_flags_passthrough (env : SpecEnv) (o : Oracle) (args : FloatArgs)
    (mn mx ab : ℚ) (rq : FloatReq) :
    (∀ r ∈ (floatStrategyOf args (floats_info o.drawFloatDtype).width mn mx ab).reqs,
      r.allow_nan = args.allow_nan ∧ r.allow_inf = args.allow_inf ∧
      r.allow_subnormal = args.allow_subnormal ∧ r.exclude_min = args.exclude_min ∧
      r.exclude_max = args.exclude_max ∧ r.width = (floats_info o.drawFloatDtype).width)
    ∧ (floatsReq env o args = some rq → floatDrawOk rq (o.drawFloat rq) = true →
        ∀ v, (floatsRun env o args).2 = .ok v →
          (args.allow_nan = false → v.isNan = false) ∧
          (args.allow_inf = false → v.isInf = false) ∧
          (args.allow_subnormal = false → v.isSubnormal = false)) := by
  constructor
  · exact fun r hr => floatStrategyOf_flags args _ mn mx ab r hr
  · intro hreq hok v hv
    have hspec := floatsReq_spec env o args rq hreq
    have hveq : o.drawFloat rq = v := by
      have h2 := hspec.1.symm.trans hv
      injection h2
    obtain ⟨mn2, mx2, ab2, -, hmem⟩ := hspec.2
    have hflags := floatStrategyOf_flags args _ mn2 mx2 ab2 rq hmem
    have hdraw := floatDrawOk_flags rq (o.drawFloat rq) hok
    rw [hveq] at hdraw
    refine ⟨fun h => hdraw.1 ?_, fun h => hdraw.2.1 ?_, fun h => hdraw.2.2 ?_⟩
    · rw [hflags.1, h]
    · rw [hflags.2.1, h]
    · rw [hflags.2.2.1, h]

/-- Witness for C7 at the concrete straddling run. -/
theorem floats_flags_passthrough_witness :
    (wreq.allow_nan = wargs.allow_nan ∧ wreq.allow_inf = wargs.allow_inf ∧
      wreq.allow_subnormal = wargs.allow_subnormal ∧
      wreq.exclude_min = wargs.exclude_min ∧ wreq.exclude_max = wargs.exclude_max ∧
      wreq.width = 32)
    ∧ ((woracle.drawFloat wreq).isNan = false ∧ (woracle.drawFloat wreq).isInf = false ∧
        (woracle.drawFloat wreq).isSubnormal = false) := by
  have h := floats_flags_passthrough wenv woracle wargs (-5) 5 1 wreq
  refine ⟨h.1 wreq ?_, ?_⟩
  · rw [show (floatStrategyOf wargs (floats_info woracle.drawFloatDtype).width (-5) 5 1) =
      .split (mkFloatReq wargs 32 (-5) (-1)) (mkFloatReq wargs 32 1 5) from by
        unfold floatStrategyOf; rw [if_neg (by decide)]; rfl]
    decide
  · have h2 := h.2 wenv_floatsReq (by decide) (woracle.drawFloat wreq)
      (floatsReq_spec wenv woracle wargs wreq wenv_floatsReq).1
    exact ⟨h2.1 rfl, h2.2.1 rfl, h2.2.2 rfl⟩

lemma intDrawOk_spec (lo hi : Option ℚ) (r : ℤ) (h : intDrawOk lo hi r = true) :
    (∀ l, lo = some l → l ≤ (r : ℚ)) ∧ ∀ q, hi = some q → (r : ℚ) ≤ q := by
  simp only [intDrawOk, Bool.and_eq_true] at h
  obtain ⟨h1, h2⟩ := h
  constructor
  · intro l hl
    rw [hl] at h1
    exact of_decide_eq_true h1
  · intro q hq
    rw [hq] at h2
    exact of_decide_eq_true h2

lemma applySafetyFactor_log (env : SpecEnv) (dom : DomainInfo)
    (min_value max_value abs_smallest_val : Option ℚ) (s l : ℚ) :
    applySafetyFactor env dom min_value max_value abs_smallest_val s l .log =
      (if max (env.logMag l (min_value.getD dom.rmin)) dom.rmin >
          min (env.logMag l (max_value.getD dom.rmax)) dom.rmax
        then .error .rangeError
        else .ok (max (env.logMag l (min_value.getD dom.rmin)) dom.rmin,
          min (env.logMag l (max_value.getD dom.rmax)) dom.rmax,
          env.logMag s (abs_smallest_val.getD dom.smallestNormal))) := rfl

lemma applySafetyFactor_ok_bounds (env : SpecEnv) (dom : DomainInfo)
    (min_value max_value abs_smallest_val : Option ℚ) (s l : ℚ) (mode : ScaleMode)
    (mn mx ab : ℚ)
    (h : applySafetyFactor env dom min_value max_value abs_smallest_val s l mode =
      .ok (mn, mx, ab)) :
    dom.rmin ≤ mn ∧ mx ≤ dom.rmax ∧ mn ≤ mx := by
  cases mode
  · rw [applySafetyFactor_linear] at h
    split at h
    · exact Except.noConfusion h
    next hcond =>
      injection h with h1
      injection h1 with h2 h3
      injection h3 with h4 h5
      subst h2 h4 h5
      exact ⟨le_max_right _ _, min_le_right _ _, not_lt.mp hcond⟩
  · rw [applySafetyFactor_log] at h
    split at h
    · exact Except.noConfusion h
    next hcond =>
      injection h with h1
      injection h1 with h2 h3
      injection h3 with h4 h5
      subst h2 h4 h5
      exact ⟨le_max_right _ _, min_le_right _ _, not_lt.mp hcond⟩

lemma intsWindow_scaled (env : SpecEnv) (d : IntDtype) (args : IntArgs) (m : ScaleMode)
    (hm : intsEffectiveScale args = some m) :
    intsWindow env d args =
      match applySafetyFactor env (iinfoDomain d) args.min_value args.max_value none
          (11 / 10) args.safety_factor m with
      | .error _ => none
      | .ok (mn, mx, _) => some (some mn, some mx) := by
  unfold intsWindow
  rw [hm]

lemma intsWindow_raw (env : SpecEnv) (d : IntDtype) (args : IntArgs)
    (hm : intsEffectiveScale args = none) :
    intsWindow env d args = some (args.min_value, args.max_value) := by
  unfold intsWindow
  rw [hm]

/-- C4 counterexample: an integer request with exactly one stated bound
(`min_value = 5`) and the default unstated scale mode delegates to the host
draw with the unstated side unbounded; a host response of 1000 — valid for
the request `[5, ∞)` — is returned although it lies far outside the resolved
`int8` domain's representable limit 127. -/
theorem ints_one_sided_bound_unclamped :
    (intsRun env0 oracle4
      { min_value := some 5, max_value := none,
        safety_factor := 11 / 10, safety_factor_scale := none }).2 = .ok 1000
    ∧ intDrawOk (some 5) none 1000 = true
    ∧ (iinfoDomain oracle4.drawIntDtype).rmax = 127
    ∧ ¬(((1000 : ℤ) : ℚ) ≤ (iinfoDomain oracle4.drawIntDtype).rmax) := by
  have hw : intsWindow env0 oracle4.drawIntDtype
      { min_value := some 5, max_value := none,
        safety_factor := 11 / 10, safety_factor_scale := none } = some (some 5, none) := by
    unfold intsWindow intsEffectiveScale
    simp
  refine ⟨?_, by decide, rfl, by norm_num [oracle4, iinfoDomain]⟩
  rw [intsRun_of_window_some env0 oracle4 _ (some 5) none hw]
  rfl

/-- C4 (amended): the returned integer lies inside the window actually
passed to the host draw; when scaling is in effect (scale mode stated, or
both bounds unstated) that window is clamped inside the resolved domain's
representable limits, while with an unstated scale mode and a stated bound
the window is exactly the caller's bounds, the unstated side unbounded. -/
theorem ints_draw_window_bounds (env : SpecEnv) (o : Oracle) (args : IntArgs)
    (lo hi : Option ℚ)
    (hwin : intsWindow env o.drawIntDtype args = some (lo, hi))
    (hc : intDrawOk lo hi (o.drawInt lo hi) = true) :
    (intsRun env o args).2 = .ok (o.drawInt lo hi)
    ∧ (∀ l, lo = some l → l ≤ (o.drawInt lo hi : ℚ))
    ∧ (∀ q, hi = some q → ((o.drawInt lo hi : ℚ)) ≤ q)
    ∧ (∀ m, intsEffectiveScale args = some m →
        ∃ mn mx, lo = some mn ∧ hi = some mx ∧
          (iinfoDomain o.drawIntDtype).rmin ≤ mn ∧ mx ≤ (iinfoDomain o.drawIntDtype).rmax)
    ∧ (intsEffectiveScale args = none → lo = args.min_value ∧ hi = args.max_value) := by
  have hbounds := intDrawOk_spec lo hi (o.drawInt lo hi) hc
  refine ⟨by rw [intsRun_of_window_some env o args lo hi hwin], hbounds.1, hbounds.2, ?_, ?_⟩
  · intro m hm
    rw [intsWindow_scaled env o.drawIntDtype args m hm] at hwin
    split at hwin
    · exact Option.noConfusion hwin
    next mn mx ab heq =>
      injection hwin with h1
      injection h1 with h2 h3
      obtain hdom := applySafetyFactor_ok_bounds env (iinfoDomain o.drawIntDtype)
        args.min_value args.max_value none (11 / 10) args.safety_factor m mn mx ab heq
      exact ⟨mn, mx, h2.symm, h3.symm, hdom.1, hdom.2.1⟩
  · intro hm
    rw [intsWindow_raw env o.drawIntDtype args hm] at hwin
    injection hwin with h1
    injection h1 with h2 h3
    exact ⟨h2.symm, h3.symm⟩

/-- Witness for C4 (amended) at a concrete scaled request. -/
theorem ints_draw_window_bounds_witness :
    intsWindow env0 oracle0.drawIntDtype
      { min_value := some (-5), max_value := some 5,
        safety_factor := 1, safety_factor_scale := some .linear } =
      some (some (-5), some 5)
    ∧ (intsRun env0 oracle0
        { min_value := some (-5), max_value := some 5,
          safety_factor := 1, safety_factor_scale := some .linear }).2 =
      .ok (oracle0.drawInt (some (-5)) (some 5)) := by
  have hw : intsWindow env0 oracle0.drawIntDtype
      { min_value := some (-5), max_value := some 5,
        safety_factor := 1, safety_factor_scale := some .linear } =
      some (some (-5), some 5) := by
    unfold intsWindow intsEffectiveScale
    simp only [reduceCtorEq, false_and, if_false]
    rw [applySafetyFactor_linear]
    simp only [Option.getD_some, div_one, oracle0, iinfoDomain]
    rw [if_neg (by decide)]
    rw [show max (-5 : ℚ) (-128) = -5 from by decide,
      show min (5 : ℚ) (127 : ℚ) = 5 from by decide]
  exact ⟨hw, (ints_draw_window_bounds env0 oracle0 _ (some (-5)) (some 5) hw (by decide)).1⟩

lemma iinfo_sign (d : IntDtype) : (iinfoDomain d).rmin ≤ 0 ∧ 0 ≤ (iinfoDomain d).rmax := by
  cases d <;> exact ⟨by norm_num [iinfoDomain], by norm_num [iinfoDomain]⟩

lemma div_bounds_of_domain (dom : DomainInfo) (f : ℚ) (hf : 1 ≤ f)
    (hmin : dom.rmin ≤ 0) (hmax : 0 ≤ dom.rmax) :
    dom.rmin ≤ dom.rmin / f ∧ dom.rmax / f ≤ dom.rmax ∧ dom.rmin / f ≤ dom.rmax / f := by
  have hf0 : 0 < f := lt_of_lt_of_le one_pos hf
  refine ⟨?_, div_le_self hmax hf, ?_⟩
  · rw [le_div_iff₀ hf0]
    nlinarith [mul_nonneg (sub_nonneg.mpr hf) (neg_nonneg.mpr hmin)]
  · rw [div_le_div_iff₀ hf0 hf0]
    exact mul_le_mul_of_nonneg_right (le_trans hmin hmax) (le_of_lt hf0)

/-- C5: an integer request with both bounds unstated forces linear scale
mode (whatever scale argument was passed), applies large-factor scaling to
the resolved domain's representable limits, and a contract-respecting draw
lies within the scaled limits, which lie within the domain's limits. -/
theorem ints_unbounded_linear_scaling (env : SpecEnv) (o : Oracle) (f : ℚ)
    (s : Option ScaleMode) (hf : 1 ≤ f)
    (hc : intDrawOk (some ((iinfoDomain o.drawIntDtype).rmin / f))
      (some ((iinfoDomain o.drawIntDtype).rmax / f))
      (o.drawInt (some ((iinfoDomain o.drawIntDtype).rmin / f))
        (some ((iinfoDomain o.drawIntDtype).rmax / f))) = true) :
    intsEffectiveScale
      { min_value := none, max_value := none, safety_factor := f,
        safety_factor_scale := s } = some .linear
    ∧ intsRun env o
        { min_value := none, max_value := none, safety_factor := f,
          safety_factor_scale := s } =
      ([.dtypeIntDraw o.drawIntDtype,
        .intDraw (some ((iinfoDomain o.drawIntDtype).rmin / f))
          (some ((iinfoDomain o.drawIntDtype).rmax / f))],
        .ok (o.drawInt (some ((iinfoDomain o.drawIntDtype).rmin / f))
          (some ((iinfoDomain o.drawIntDtype).rmax / f))))
    ∧ (iinfoDomain o.drawIntDtype).rmin ≤
        ((o.drawInt (some ((iinfoDomain o.drawIntDtype).rmin / f))
          (some ((iinfoDomain o.drawIntDtype).rmax / f))) : ℚ)
    ∧ ((o.drawInt (some ((iinfoDomain o.drawIntDtype).rmin / f))
          (some ((iinfoDomain o.drawIntDtype).rmax / f))) : ℚ) ≤
        (iinfoDomain o.drawIntDtype).rmax := by
  have hsign := iinfo_sign o.drawIntDtype
  have hdb := div_bounds_of_domain (iinfoDomain o.drawIntDtype) f hf hsign.1 hsign.2
  have hes : intsEffectiveScale
      { min_value := none, max_value := none, safety_factor := f,
        safety_factor_scale := s } = some .linear := by
    unfold intsEffectiveScale
    simp
  have happ : applySafetyFactor env (iinfoDomain o.drawIntDtype) none none none
      (11 / 10) f .linear =
      .ok ((iinfoDomain o.drawIntDtype).rmin / f, (iinfoDomain o.drawIntDtype).rmax / f,
        (iinfoDomain o.drawIntDtype).smallestNormal * (11 / 10)) := by
    rw [applySafetyFactor_linear]
    simp only [Option.getD_none]
    rw [max_eq_left hdb.1, min_eq_left hdb.2.1]
    rw [if_neg (not_lt.mpr hdb.2.2)]
  have hwin : intsWindow env o.drawIntDtype
      { min_value := none, max_value := none, safety_factor := f,
        safety_factor_scale := s } =
      some (some ((iinfoDomain o.drawIntDtype).rmin / f),
        some ((iinfoDomain o.drawIntDtype).rmax / f)) := by
    rw [intsWindow_scaled env o.drawIntDtype _ .linear hes, happ]
  have hspec := intDrawOk_spec _ _ _ hc
  refine ⟨hes, intsRun_of_window_some env o _ _ _ hwin, ?_, ?_⟩
  · exact le_trans hdb.1 (hspec.1 _ rfl)
  · exact le_trans (hspec.2 _ rfl) hdb.2.1

/-- Witness for C5: safety factor 1 over the `int8` domain. -/
theorem ints_unbounded_linear_scaling_witness :
    (1 : ℚ) ≤ 1
    ∧ intsEffectiveScale
        { min_value := none, max_value := none, safety_factor := 1,
          safety_factor_scale := none } = some .linear := by
  refine ⟨by decide, (ints_unbounded_linear_scaling env0 oracle0 1 none (by decide) ?_).1⟩
  simp only [oracle0, iinfoDomain, div_one]
  decide

/-- C6: with a stated scale mode, `ints` applies only large-factor scaling —
the drawn window comes from the safety-factor scaler with its excluded-band
output discarded, and the window does not depend on the band or small-factor
inputs — then delegates one inclusive host integer draw with no range
splitting; with an unstated scale mode and at least one stated bound, the
caller's bounds reach the draw unchanged, with no scaling at all. -/
theorem ints_scale_mode_behavior (env : SpecEnv) (o : Oracle) (args : IntArgs)
    (m : ScaleMode) :
    (args.safety_factor_scale = some m →
      (args.min_value ≠ none ∨ args.max_value ≠ none) →
      ∀ mn mx ab, applySafetyFactor env (iinfoDomain o.drawIntDtype) args.min_value
          args.max_value none (11 / 10) args.safety_factor m = .ok (mn, mx, ab) →
        intsRun env o args =
          ([.dtypeIntDraw o.drawIntDtype, .intDraw (some mn) (some mx)],
            .ok (o.drawInt (some mn) (some mx))))
    ∧ (∀ (abs2 : Option ℚ) (s2 : ℚ) (mode : ScaleMode),
        (applySafetyFactor env (iinfoDomain o.drawIntDtype) args.min_value args.max_value
          abs2 s2 args.safety_factor mode).map (fun t => (t.1, t.2.1)) =
        (applySafetyFactor env (iinfoDomain o.drawIntDtype) args.min_value args.max_value
          none (11 / 10) args.safety_factor mode).map (fun t => (t.1, t.2.1)))
    ∧ (args.safety_factor_scale = none →
      (args.min_value ≠ none ∨ args.max_value ≠ none) →
      intsRun env o args =
        ([.dtypeIntDraw o.drawIntDtype, .intDraw args.min_value args.max_value],
          .ok (o.drawInt args.min_value args.max_value))) := by
  have hboth : (args.min_value ≠ none ∨ args.max_value ≠ none) →
      ¬(args.min_value = none ∧ args.max_value = none) := by
    rintro (h | h) ⟨h1, h2⟩
    · exact h h1
    · exact h h2
  refine ⟨?_, ?_, ?_⟩
  · intro hm hbound mn mx ab happ
    have hes : intsEffectiveScale args = some m := by
      unfold intsEffectiveScale
      rw [if_neg (hboth hbound), hm]
    have hwin : intsWindow env o.drawIntDtype args = some (some mn, some mx) := by
      rw [intsWindow_scaled env o.drawIntDtype args m hes, happ]
    exact intsRun_of_window_some env o args _ _ hwin
  · intro abs2 s2 mode
    cases mode
    · rw [applySafetyFactor_linear, applySafetyFactor_linear]
      split <;> rfl
    · rw [applySafetyFactor_log, applySafetyFactor_log]
      split <;> rfl
  · intro hm hbound
    have hes : intsEffectiveScale args = none := by
      unfold intsEffectiveScale
      rw [if_neg (hboth hbound), hm]
    exact intsRun_of_window_some env o args _ _ (intsWindow_raw env o.drawIntDtype args hes)

/-- Witness for C6: a stated linear scale mode with factor 1 over `int8`. -/
theorem ints_scale_mode_behavior_witness :
    intsRun env0 oracle0
      { min_value := some (-5), max_value := some 5,
        safety_factor := 1, safety_factor_scale := some .linear } =
      ([.dtypeIntDraw oracle0.drawIntDtype, .intDraw (some (-5)) (some 5)],
        .ok (oracle0.drawInt (some (-5)) (some 5))) := by
  refine (ints_scale_mode_behavior env0 oracle0
    { min_value := some (-5), max_value := some 5,
      safety_factor := 1, safety_factor_scale := some .linear } .linear).1 rfl
    (Or.inl (Option.some_ne_none _)) (-5) 5 0 ?_
  rw [applySafetyFactor_linear]
  simp only [Option.getD_some, Option.getD_none, div_one, oracle0, iinfoDomain, zero_mul]
  rw [if_neg (by decide)]
  rw [show max (-5 : ℚ) (-128) = -5 from by decide,
    show min (5 : ℚ) (127 : ℚ) = 5 from by decide]

/-- C8: `number` is an unweighted binary choice between the `ints` and
`floats` alternatives; the chosen branch receives the same bounds and the
same safety-factor parameters, with `large_abs_safety_factor` becoming the
integer branch's single `safety_factor` and every remaining float parameter
left at its default. -/
theorem number_composition (env : SpecEnv) (o : Oracle) (args : NumberArgs) :
    numberRun env o args =
      (if o.numberPickFloat then
        (.oneOfChoice true ::
          (floatsRun env o
            { min_value := args.min_value, max_value := args.max_value,
              abs_smallest_val := none, allow_nan := false, allow_inf := false,
              allow_subnormal := false, exclude_min := true, exclude_max := true,
              large_abs_safety_factor := args.large_abs_safety_factor,
              small_abs_safety_factor := args.small_abs_safety_factor,
              safety_factor_scale := args.safety_factor_scale }).1,
          (floatsRun env o
            { min_value := args.min_value, max_value := args.max_value,
              abs_smallest_val := none, allow_nan := false, allow_inf := false,
              allow_subnormal := false, exclude_min := true, exclude_max := true,
              large_abs_safety_factor := args.large_abs_safety_factor,
              small_abs_safety_factor := args.small_abs_safety_factor,
              safety_factor_scale := args.safety_factor_scale }).2.map .inr)
      else
        (.oneOfChoice false ::
          (intsRun env o
            { min_value := args.min_value, max_value := args.max_value,
              safety_factor := args.large_abs_safety_factor,
              safety_factor_scale := some args.safety_factor_scale }).1,
          (intsRun env o
            { min_value := args.min_value, max_value := args.max_value,
              safety_factor := args.large_abs_safety_factor,
              safety_factor_scale := some args.safety_factor_scale }).2.map .inl)) := rfl

/-- C9: a generator run is a pure function of its arguments and the host
draw results: two oracles that return the same dtype selections, the same
one_of choices and the same value draws make every generator return the
same trace and the same value. -/
theorem generators_deterministic (env : SpecEnv) (o1 o2 : Oracle)
    (fargs : FloatArgs) (iargs : IntArgs) (nargs : NumberArgs)
    (hfd : o1.drawFloatDtype = o2.drawFloatDtype)
    (hid : o1.drawIntDtype = o2.drawIntDtype)
    (hbit : o1.oneOfSecond = o2.oneOfSecond)
    (hpick : o1.numberPickFloat = o2.numberPickFloat)
    (hdf : ∀ r : FloatReq, o1.drawFloat r = o2.drawFloat r)
    (hdi : ∀ lo hi : Option ℚ, o1.drawInt lo hi = o2.drawInt lo hi) :
    floatsRun env o1 fargs = floatsRun env o2 fargs
    ∧ intsRun env o1 iargs = intsRun env o2 iargs
    ∧ numberRun env o1 nargs = numberRun env o2 nargs := by
  obtain ⟨a1, b1, c1, d1, e1, g1⟩ := o1
  obtain ⟨a2, b2, c2, d2, e2, g2⟩ := o2
  simp only at hfd hid hbit hpick hdf hdi
  subst hfd hid hbit hpick
  have he : e1 = e2 := funext hdf
  have hg : g1 = g2 := funext fun lo => funext fun hi => hdi lo hi
  subst he hg
  exact ⟨rfl, rfl, rfl⟩

/-- Witness for C9 at a concrete oracle. -/
theorem generators_deterministic_witness :
    floatsRun env0 oracle0 {} = floatsRun env0 oracle0 {}
    ∧ intsRun env0 oracle0 {} = intsRun env0 oracle0 {}
    ∧ numberRun env0 oracle0 {} = numberRun env0 oracle0 {} :=
  generators_deterministic env0 oracle0 oracle0 {} {} {} rfl rfl rfl rfl
    (fun _ => rfl) (fun _ _ => rfl)

/-- C10: the integer branch of `number` always receives a stated scale mode
(the caller's, `"linear"` by default), so its draw window always comes from
safety-factor scaling; `ints` called directly with its default unstated
scale mode and a stated bound passes the caller's bounds to the host draw
unchanged, with no scaling. -/
theorem number_int_branch_always_scaled (env : SpecEnv) (o : Oracle)
    (args : NumberArgs) (iargs : IntArgs) :
    (numberIntArgs args).safety_factor_scale = some args.safety_factor_scale
    ∧ (∃ m, intsEffectiveScale (numberIntArgs args) = some m)
    ∧ (intsWindow env o.drawIntDtype (numberIntArgs args) = none ∨
        ∃ mn mx ab,
          applySafetyFactor env (iinfoDomain o.drawIntDtype) args.min_value
            args.max_value none (11 / 10) args.large_abs_safety_factor
            (if args.min_value = none ∧ args.max_value = none then .linear
              else args.safety_factor_scale) = .ok (mn, mx, ab) ∧
          intsWindow env o.drawIntDtype (numberIntArgs args) = some (some mn, some mx))
    ∧ (iargs.safety_factor_scale = none →
        (iargs.min_value ≠ none ∨ iargs.max_value ≠ none) →
        intsWindow env o.drawIntDtype iargs = some (iargs.min_value, iargs.max_value)) := by
  have hes : intsEffectiveScale (numberIntArgs args) =
      some (if args.min_value = none ∧ args.max_value = none then .linear
        else args.safety_factor_scale) := by
    unfold intsEffectiveScale numberIntArgs
    split
    · rfl
    · rfl
  refine ⟨rfl, ⟨_, hes⟩, ?_, ?_⟩
  · rw [intsWindow_scaled env o.drawIntDtype _ _ hes]
    simp only [numberIntArgs]
    cases happ : applySafetyFactor env (iinfoDomain o.drawIntDtype) args.min_value
        args.max_value none (11 / 10) args.large_abs_safety_factor
        (if args.min_value = none ∧ args.max_value = none then .linear
          else args.safety_factor_scale) with
    | error e => exact Or.inl rfl
    | ok t =>
        obtain ⟨mn, mx, ab⟩ := t
        exact Or.inr ⟨mn, mx, ab, rfl, rfl⟩
  · intro hm hbound
    apply intsWindow_raw
    unfold intsEffectiveScale
    rw [if_neg, hm]
    rintro ⟨h1, h2⟩
    rcases hbound with h | h
    · exact h h1
    · exact h h2

/-- Witness for C10: `number`'s integer branch on a one-sided request has a
stated (linear) scale mode, while a direct `ints` call with the same bounds
and default scale mode draws from the caller's bounds unchanged. -/
theorem number_int_branch_always_scaled_witness :
    (numberIntArgs { min_value := some 5 } : IntArgs).safety_factor_scale =
      some ScaleMode.linear
    ∧ intsWindow env0 oracle0.drawIntDtype ({ min_value := some 5 } : IntArgs) =
      some (some 5, none) := by
  have h := number_int_branch_always_scaled env0 oracle0 { min_value := some 5 }
    { min_value := some 5 }
  exact ⟨h.1, h.2.2.2 rfl (Or.inl (Option.some_ne_none _))⟩

end NumberHelpers
